import Mathlib

/-!
Shallow embedding of the payment_service repository (Go) for checking its
natural-language specification.

Sources embedded:
  internal/domain/shared/amount.go            (Amount value object)
  internal/domain/shared errors.go            (shared error values)
  shared IBAN / IdempotencyKey value objects
  internal/domain/payment/payment.go          (Payment aggregate)
  internal/domain/payment/payment_status.go   (status constants)
  internal/infrastructure/persistence/sqlite/payment_repository.go
  internal/infrastructure/persistence/sqlite/migrator.go
  migrations/001_create_payments_table.sql    (schema CHECK / UNIQUE constraints)

Modelling conventions:
  - Go int64 arithmetic is Int with explicit two's-complement wrap (wrap64).
  - Go strings are Lean String; Go len(s) (UTF-8 bytes) is utf8Len, SQLite
    length(s) (characters) is String.length.
  - time.Time values are Nat ticks.
  - Go methods that mutate a receiver return the updated value paired with
    an Option error, mirroring the early-return-on-error structure.
  - The SQLite database is a list of rows; constraint behaviour follows the
    schema in 001_create_payments_table.sql.
-/

namespace PaymentService

/-! ## Shared errors (internal/domain/shared/errors.go)

The shared package declares sentinel error values.  errDuplicateIdempotencyKey
is the sentinel referenced by the sqlite repository (shared.ErrDuplicateIdempotencyKey).
-/

inductive SharedErr where
  | errInvalidIBAN
  | errInvalidAmount
  | errInvalidIdempotencyKey
  | errInvalidPaymentStatus
  | errInvalidStatusTransition
  | errPaymentNotFound
  | errDuplicatePayment
  | errDuplicateIdempotencyKey
deriving DecidableEq, Repr

/-! ## Character helpers

Go's strings.ToUpper restricted to the ASCII range (the only range relevant
to the IBAN grammar, which accepts only A-Z and 0-9 after normalization).
-/

def isLowerAlpha (c : Char) : Bool := 97 ≤ c.toNat && c.toNat ≤ 122

def isUpperAlpha (c : Char) : Bool := 65 ≤ c.toNat && c.toNat ≤ 90

def isDigitChar (c : Char) : Bool := 48 ≤ c.toNat && c.toNat ≤ 57

def isUpperAlnum (c : Char) : Bool := isUpperAlpha c || isDigitChar c

def isKeyChar (c : Char) : Bool := isUpperAlpha c || isLowerAlpha c || isDigitChar c

def goToUpper (c : Char) : Char :=
  if h : 97 ≤ c.toNat ∧ c.toNat ≤ 122 then
    Char.ofNatAux (c.toNat - 32) (Or.inl (by omega))
  else c

/-- UTF-8 byte size of a character, as Go's len counts it. -/
def charUtf8Size (c : Char) : Nat :=
  if c.toNat < 128 then 1
  else if c.toNat < 2048 then 2
  else if c.toNat < 65536 then 3
  else 4

/-- Go len(s): the UTF-8 byte length of a string. -/
def utf8Len (s : String) : Nat := (s.data.map charUtf8Size).sum

/-! ## Amount (internal/domain/shared/amount.go)

The Go struct stores the amount as an int64 number of cents.  Addition is
plain int64 addition (two's-complement wraparound); subtraction guards
against going negative.
-/

/-- Two's-complement wraparound of Go int64 arithmetic. -/
def wrap64 (x : Int) : Int := (x + 2 ^ 63) % 2 ^ 64 - 2 ^ 63

structure Amount where
  value : Int
deriving DecidableEq, Repr

def NewAmountFromCents (cents : Int) : Except SharedErr Amount :=
  if cents < 0 then .error .errInvalidAmount
  else .ok ⟨cents⟩

def Amount.IsZero (a : Amount) : Bool := a.value == 0

def Amount.Add (a other : Amount) : Amount := ⟨wrap64 (a.value + other.value)⟩

def Amount.Subtract (a other : Amount) : Except String Amount :=
  if a.value < other.value then .error "cannot subtract, result would be negative"
  else .ok ⟨wrap64 (a.value - other.value)⟩

/-! ## IdempotencyKey (shared idempotency_key.go)

Validated by the regex `^[A-Za-z0-9]{10}$`.
-/

structure IdempotencyKey where
  value : String
deriving DecidableEq, Repr

def idempotencyKeyMatch (l : List Char) : Bool := l.length == 10 && l.all isKeyChar

def NewIdempotencyKey (value : String) : Except SharedErr IdempotencyKey :=
  if idempotencyKeyMatch value.data then .ok ⟨value⟩
  else .error .errInvalidIdempotencyKey

/-! ## IBAN (shared iban.go)

NewIBAN normalizes (strip spaces, uppercase) and then matches the anchored
regex `^[A-Z]{2}[0-9]{2}[A-Z0-9]{4}[0-9]{7}([A-Z0-9]?){0,16}$`: two letters,
two digits, four alphanumerics, seven digits, then zero to sixteen further
alphanumerics.
-/

structure IBAN where
  value : String
deriving DecidableEq, Repr

/-- Decision procedure for the anchored IBAN regex on a character list. -/
def ibanMatch : List Char → Bool
  | c0 :: c1 :: c2 :: c3 :: c4 :: c5 :: c6 :: c7 ::
    c8 :: c9 :: c10 :: c11 :: c12 :: c13 :: c14 :: rest =>
      isUpperAlpha c0 && isUpperAlpha c1 &&
      isDigitChar c2 && isDigitChar c3 &&
      isUpperAlnum c4 && isUpperAlnum c5 && isUpperAlnum c6 && isUpperAlnum c7 &&
      isDigitChar c8 && isDigitChar c9 && isDigitChar c10 && isDigitChar c11 &&
      isDigitChar c12 && isDigitChar c13 && isDigitChar c14 &&
      decide (rest.length ≤ 16) && rest.all isUpperAlnum
  | _ => false

/-- Normalization performed by NewIBAN: strings.ToUpper(strings.ReplaceAll(value, " ", "")). -/
def normalizeIBAN (s : String) : String :=
  String.mk ((s.data.filter (fun c => c ≠ ' ')).map goToUpper)

def NewIBAN (value : String) : Except SharedErr IBAN :=
  let normalized := normalizeIBAN value
  if ibanMatch normalized.data then .ok ⟨normalized⟩
  else .error .errInvalidIBAN

/-! ## Payment status (internal/domain/payment/payment_status.go)

PaymentStatus is a Go string type with three constants.
-/

def StatusPending : String := "PENDING"

def StatusProcessed : String := "PROCESSED"

def StatusFailed : String := "FAILED"

/-! ## Payment aggregate (internal/domain/payment/payment.go) -/

structure Payment where
  id : String
  debtorIBAN : IBAN
  debtorName : String
  creditorIBAN : IBAN
  creditorName : String
  amount : Amount
  idempotencyKey : IdempotencyKey
  status : String
  createdAt : Nat
  updatedAt : Nat
deriving DecidableEq, Repr

/-- validatePaymentData: Go checks len(debtorName) < 3, len(creditorName) < 3
(len counts UTF-8 bytes) and amount.IsZero(), each returning
shared.ErrInvalidAmount.  There is no upper-bound check on either name. -/
def validatePaymentData (debtorName creditorName : String) (amount : Amount) :
    Option SharedErr :=
  if utf8Len debtorName < 3 then some .errInvalidAmount
  else if utf8Len creditorName < 3 then some .errInvalidAmount
  else if amount.IsZero then some .errInvalidAmount
  else none

def NewPayment (id : String) (debtorIBAN : IBAN) (debtorName : String)
    (creditorIBAN : IBAN) (creditorName : String) (amount : Amount)
    (idempotencyKey : IdempotencyKey) (createdAt updatedAt : Nat) :
    Except SharedErr Payment :=
  match validatePaymentData debtorName creditorName amount with
  | some e => .error e
  | none =>
      .ok { id := id, debtorIBAN := debtorIBAN, debtorName := debtorName,
            creditorIBAN := creditorIBAN, creditorName := creditorName,
            amount := amount, idempotencyKey := idempotencyKey,
            status := StatusPending, createdAt := createdAt, updatedAt := updatedAt }

/-- canTransitionTo: a switch on the current status string; from Pending the
two terminal statuses are reachable, from Processed/Failed (and any other
string, the default case) nothing is. -/
def Payment.canTransitionTo (p : Payment) (newStatus : String) : Bool :=
  if p.status = StatusPending then
    newStatus == StatusProcessed || newStatus == StatusFailed
  else if p.status = StatusProcessed ∨ p.status = StatusFailed then false
  else false

/-- MarkAsProcessed mutates the receiver on success; on failure it returns
shared.ErrInvalidStatusTransition before touching any field.  Modelled as
(updated payment, optional error). -/
def Payment.markAsProcessed (p : Payment) (updatedAt : Nat) : Payment × Option SharedErr :=
  if ! p.canTransitionTo StatusProcessed then (p, some .errInvalidStatusTransition)
  else ({ p with status := StatusProcessed, updatedAt := updatedAt }, none)

def Payment.markAsFailed (p : Payment) (updatedAt : Nat) : Payment × Option SharedErr :=
  if ! p.canTransitionTo StatusFailed then (p, some .errInvalidStatusTransition)
  else ({ p with status := StatusFailed, updatedAt := updatedAt }, none)

/-! ## SQLite payment repository
(internal/infrastructure/persistence/sqlite/payment_repository.go, executing
against the payments table created by migrations/001_create_payments_table.sql)

The store is a list of rows.  The schema declares
  id TEXT PRIMARY KEY,
  CHECK(length(debtor_name) between 3 and 30), same for creditor_name,
  CHECK(amount_cents > 0),
  idempotency_key TEXT UNIQUE CHECK(length = 10),
  CHECK(status in PENDING/PROCESSED/FAILED).
SQLite's length() on TEXT counts characters, hence String.length here.
-/

structure Row where
  id : String
  debtorIban : String
  debtorName : String
  creditorIban : String
  creditorName : String
  amountCents : Int
  currency : String
  idempotencyKey : String
  status : String
  createdAt : Nat
  updatedAt : Nat
deriving DecidableEq, Repr

/-- Repository errors: either one of the shared sentinel errors or an
untyped fmt.Errorf-style error carrying only a message. -/
inductive RepoErr where
  | sharedErr (e : SharedErr)
  | genericMsg (msg : String)
deriving DecidableEq, Repr

/-- Row assembled by Save from the aggregate's accessors (currency is the
hard-coded "EUR" default). -/
def rowOf (p : Payment) : Row :=
  { id := p.id, debtorIban := p.debtorIBAN.value, debtorName := p.debtorName,
    creditorIban := p.creditorIBAN.value, creditorName := p.creditorName,
    amountCents := p.amount.value, currency := "EUR",
    idempotencyKey := p.idempotencyKey.value, status := p.status,
    createdAt := p.createdAt, updatedAt := p.updatedAt }

/-- CHECK constraints declared by 001_create_payments_table.sql. -/
def rowCheckOk (r : Row) : Bool :=
  3 ≤ r.debtorName.length && r.debtorName.length ≤ 30 &&
  3 ≤ r.creditorName.length && r.creditorName.length ≤ 30 &&
  0 < r.amountCents &&
  r.idempotencyKey.length == 10 &&
  (r.status == StatusPending || r.status == StatusProcessed || r.status == StatusFailed)

/-- INSERT INTO payments: SQLite validates NOT NULL / CHECK constraints on the
new row first, then updates the unique indexes (id primary key, idempotency
key unique index), failing with the corresponding constraint message. -/
def insertPayment (db : List Row) (r : Row) : Except String (List Row) :=
  if ! rowCheckOk r then .error "CHECK constraint failed: payments"
  else if db.any (fun q => q.id == r.id) then
    .error "UNIQUE constraint failed: payments.id"
  else if db.any (fun q => q.idempotencyKey == r.idempotencyKey) then
    .error "UNIQUE constraint failed: payments.idempotency_key"
  else .ok (db ++ [r])

/-- isUniqueConstraintError: exact string comparison against the two SQLite
unique-constraint messages. -/
def isUniqueConstraintError (msg : String) : Bool :=
  msg == "UNIQUE constraint failed: payments.idempotency_key" ||
  msg == "UNIQUE constraint failed: payments.id"

/-- Save: run the INSERT; a unique-constraint failure becomes
shared.ErrDuplicateIdempotencyKey, any other failure is wrapped generically. -/
def Save (db : List Row) (p : Payment) : Except RepoErr (List Row) :=
  match insertPayment db (rowOf p) with
  | .ok db' => .ok db'
  | .error msg =>
      if isUniqueConstraintError msg then .error (.sharedErr .errDuplicateIdempotencyKey)
      else .error (.genericMsg ("failed to save payment: " ++ msg))

/-- scanPayment: rebuild every value object from the row, construct the
aggregate (which starts Pending), then replay the persisted status through
the state machine. -/
def scanPayment (r : Row) : Except String Payment :=
  match NewIBAN r.debtorIban with
  | .error _ => .error "invalid debtor IBAN in database"
  | .ok debtorIBANObj =>
  match NewIBAN r.creditorIban with
  | .error _ => .error "invalid creditor IBAN in database"
  | .ok creditorIBANObj =>
  match NewAmountFromCents r.amountCents with
  | .error _ => .error "invalid amount in database"
  | .ok amount =>
  match NewIdempotencyKey r.idempotencyKey with
  | .error _ => .error "invalid idempotency key in database"
  | .ok idempotencyKeyObj =>
  match NewPayment r.id debtorIBANObj r.debtorName creditorIBANObj r.creditorName
      amount idempotencyKeyObj r.createdAt r.updatedAt with
  | .error _ => .error "failed to create payment domain object"
  | .ok p =>
      if r.status = StatusProcessed then
        match p.markAsProcessed r.updatedAt with
        | (p', none) => .ok p'
        | (_, some _) => .error "failed to set payment status to processed"
      else if r.status = StatusFailed then
        match p.markAsFailed r.updatedAt with
        | (p', none) => .ok p'
        | (_, some _) => .error "failed to set payment status to failed"
      else if r.status = StatusPending then .ok p
      else .error ("unknown payment status: " ++ r.status)

/-- FindByID: the sql.ErrNoRows branch returns (nil, nil) - an absent row
produces no error, only an empty result. -/
def FindByID (db : List Row) (id : String) : Except RepoErr (Option Payment) :=
  match db.find? (fun r => r.id == id) with
  | none => .ok none
  | some r =>
      match scanPayment r with
      | .ok p => .ok (some p)
      | .error msg => .error (.genericMsg ("failed to find payment by ID: " ++ msg))

/-- FindByIdempotencyKey: same shape as FindByID, keyed on the token. -/
def FindByIdempotencyKey (db : List Row) (key : IdempotencyKey) :
    Except RepoErr (Option Payment) :=
  match db.find? (fun r => r.idempotencyKey == key.value) with
  | none => .ok none
  | some r =>
      match scanPayment r with
      | .ok p => .ok (some p)
      | .error msg =>
          .error (.genericMsg ("failed to find payment by idempotency key: " ++ msg))

/-- UpdateStatus: UPDATE payments SET status, updated_at = CURRENT_TIMESTAMP
WHERE id = ?.  A matched row is re-checked against the status CHECK
constraint; zero matched rows yields the formatted not-found error. -/
def UpdateStatus (now : Nat) (db : List Row) (id status : String) :
    Except RepoErr (List Row) :=
  if db.any (fun r => r.id == id) then
    if status == StatusPending || status == StatusProcessed || status == StatusFailed then
      .ok (db.map (fun r => if r.id == id then { r with status := status, updatedAt := now } else r))
    else .error (.genericMsg "failed to update payment status: CHECK constraint failed: payments")
  else .error (.genericMsg ("payment with ID " ++ id ++ " not found"))

/-! ## Migration engine (internal/infrastructure/persistence/sqlite/migrator.go)

Migration mirrors the Go struct {Version int; SQL string; AppliedAt *time.Time}.
The migration database state is the schema_migrations tracking table
(version INTEGER PRIMARY KEY, applied_at) plus the log of executed script
bodies; createMigrationsTable is idempotent DDL and is the identity on this
state.  Script execution inside a transaction is abstracted by an oracle
execOk : String → Bool saying whether ExecContext on that body succeeds.
-/

structure Migration where
  version : Int
  sql : String
  appliedAt : Option Nat
deriving DecidableEq, Repr

structure DbState where
  tracking : List (Int × Nat)
  schema : List String
deriving DecidableEq, Repr

/-- getAppliedMigrations: SELECT version, applied_at FROM schema_migrations,
each row scanned into a Migration with AppliedAt set. -/
def appliedOf (st : DbState) : List Migration :=
  st.tracking.map (fun r => { version := r.1, sql := "", appliedAt := some r.2 })

/-- findPendingMigrations: build the applied-version set, keep the available
migrations whose version is not in it. -/
def findPendingMigrations (available applied : List Migration) : List Migration :=
  available.filter (fun m => ! applied.any (fun a => a.version == m.version))

/-- applyMigration: one transaction that executes the script body and inserts
the tracking row (version INTEGER PRIMARY KEY, so a duplicate version fails);
any failure rolls the transaction back, leaving the state unchanged (the
caller keeps its pre-call state on error). -/
def applyMigration (execOk : String → Bool) (now : Nat) (st : DbState)
    (mg : Migration) : Except String DbState :=
  if ! execOk mg.sql then .error "failed to execute migration SQL"
  else if st.tracking.any (fun r => r.1 == mg.version) then
    .error "failed to record migration"
  else .ok { tracking := st.tracking ++ [(mg.version, now)],
             schema := st.schema ++ [mg.sql] }

/-- Migrate's application loop: apply each pending migration in list order,
halting on the first failure.  Returns the resulting database state, the
overall error if any, and the number of transactions opened (BeginTx calls). -/
def migrateLoop (execOk : String → Bool) (now : Nat) :
    List Migration → DbState → DbState × Option String × Nat
  | [], st => (st, none, 0)
  | mg :: rest, st =>
      match applyMigration execOk now st mg with
      | .error e => (st, some ("failed to apply migration: " ++ e), 1)
      | .ok st' =>
          let r := migrateLoop execOk now rest st'
          (r.1, r.2.1, r.2.2 + 1)

/-- Migrate: ensure the tracking table (identity here), enumerate available
and applied migrations, compute the pending set and apply it in order. -/
def migrate (execOk : String → Bool) (now : Nat) (available : List Migration)
    (st : DbState) : DbState × Option String × Nat :=
  migrateLoop execOk now (findPendingMigrations available (appliedOf st)) st

/-! GetMigrationStatus merge: the Go code builds map[int]Migration from the
available set, then iterates the applied rows; `migration` in that loop is a
copy of the map value (Go map indexing yields a copy), the copy's AppliedAt
is assigned and the copy is discarded - the map is never written back to.
Finally the map's values are collected and sorted ascending by version. -/

/-- Assignment migrationMap[k] = v on a map modelled as an association list
keyed by version (replacing any existing entry). -/
def mapInsert (m : List (Int × Migration)) (k : Int) (v : Migration) :
    List (Int × Migration) :=
  if m.any (fun p => p.1 == k) then
    m.map (fun p => if p.1 == k then (k, v) else p)
  else m ++ [(k, v)]

/-- Insertion into a version-sorted list, implementing sort.Slice's result
(keys are unique, so the order is fully determined by the comparator). -/
def insertByVersion (mg : Migration) : List Migration → List Migration
  | [] => [mg]
  | h :: t => if mg.version < h.version then mg :: h :: t else h :: insertByVersion mg t

def sortByVersion (l : List Migration) : List Migration := l.foldr insertByVersion []

/-- GetMigrationStatus's merge of the available and applied sets.  The second
fold is the applied-rows loop: its body mutates only the discarded local
copy of the map value, so it leaves the map unchanged. -/
def getMigrationStatus (available applied : List Migration) : List Migration :=
  let migrationMap := available.foldl (fun acc mg => mapInsert acc mg.version mg) []
  let migrationMap := applied.foldl (fun acc _ => acc) migrationMap
  sortByVersion (migrationMap.map (fun p => p.2))

/-! ## Concrete values for witnesses and counterexamples

All built through the source constructors (the fallback arms are never
taken; the constructions succeed, as the theorems below verify).
-/

def ibanDE : IBAN :=
  match NewIBAN "DE89370400440532013000" with
  | .ok i => i
  | .error _ => ⟨""⟩

def ibanFR : IBAN :=
  match NewIBAN "FR1420041010050500013M02606" with
  | .ok i => i
  | .error _ => ⟨""⟩

def keyA : IdempotencyKey :=
  match NewIdempotencyKey "abc123XYZ0" with
  | .ok k => k
  | .error _ => ⟨""⟩

def keyB : IdempotencyKey :=
  match NewIdempotencyKey "nonexist01" with
  | .ok k => k
  | .error _ => ⟨""⟩

def amount10050 : Amount :=
  match NewAmountFromCents 10050 with
  | .ok a => a
  | .error _ => ⟨0⟩

/-- Aggregate with a 31-character debtor name, accepted by NewPayment
because validatePaymentData has no upper-bound check. -/
def payment31 : Payment :=
  match NewPayment "p1" ibanDE "AAAAAAAAAAAAAAAAAAAAAAAAAAAAAAA" ibanFR "Jane Smith"
      amount10050 keyA 0 0 with
  | .ok p => p
  | .error _ => { id := "", debtorIBAN := ibanDE, debtorName := "", creditorIBAN := ibanFR,
                  creditorName := "", amount := ⟨0⟩, idempotencyKey := keyA,
                  status := "", createdAt := 0, updatedAt := 0 }

/-- Well-formed aggregate sharing payment31's idempotency token under a
different id. -/
def paymentOk : Payment :=
  match NewPayment "p2" ibanDE "John Doe" ibanFR "Jane Smith" amount10050 keyA 0 0 with
  | .ok p => p
  | .error _ => { id := "", debtorIBAN := ibanDE, debtorName := "", creditorIBAN := ibanFR,
                  creditorName := "", amount := ⟨0⟩, idempotencyKey := keyA,
                  status := "", createdAt := 0, updatedAt := 0 }

/-- Second well-formed aggregate with the same token, used as the first
saver in the C2 witness. -/
def paymentJohn : Payment :=
  match NewPayment "p3" ibanDE "John Doe" ibanFR "Jane Smith" amount10050 keyA 0 0 with
  | .ok p => p
  | .error _ => { id := "", debtorIBAN := ibanDE, debtorName := "", creditorIBAN := ibanFR,
                  creditorName := "", amount := ⟨0⟩, idempotencyKey := keyA,
                  status := "", createdAt := 0, updatedAt := 0 }

end PaymentService

namespace PaymentService

/-! ## Claim theorems -/

/-- Claim C1 (code bug): on an id or token with no matching stored payment,
FindByID and FindByIdempotencyKey return an empty result with NO error (the
sql.ErrNoRows branch returns nil, nil), contradicting the claim, the spec,
and the repository's own tests, which demand shared.ErrPaymentNotFound.
UpdateStatus on a zero-row match does fail, but with an untyped formatted
error rather than the ErrPaymentNotFound sentinel. -/
theorem C1_find_absent_returns_no_error :
    FindByID [] "non-existent-id" = .ok none
  ∧ FindByIdempotencyKey [] keyB = .ok none
  ∧ UpdateStatus 7 [] "non-existent-id" StatusProcessed
      = .error (.genericMsg "payment with ID non-existent-id not found") := by
  refine ⟨rfl, rfl, rfl⟩

/-- Claim C5 (code bug): merging available = {version 1} with applied rows
{(1, t=5), (2, t=6)} returns only version 1 and still with no applied-at
timestamp: the applied-only version 2 is dropped (the loop's `exists` guard
skips it) and AppliedAt is assigned to a discarded copy of the map value,
never written back.  The claim (and the repo's own migrator test) requires
both versions, with AppliedAt set on applied ones. -/
theorem C5_status_merge_drops_applied :
    getMigrationStatus [⟨1, "s1", none⟩] [⟨1, "", some 5⟩, ⟨2, "", some 6⟩]
      = [⟨1, "s1", none⟩] := by
  decide

/-- Claim C4 counterexample: NewPayment accepts a 31-character debtor name
(the claim requires rejection above 30), and accepts a 2-character name
whose UTF-8 encoding is 4 bytes (the claim's lower bound is 3 characters,
but Go's len counts bytes). -/
theorem C4_counterexample :
    (NewPayment "p1" ibanDE "AAAAAAAAAAAAAAAAAAAAAAAAAAAAAAA" ibanFR "Jane Smith"
        amount10050 keyA 0 0).isOk = true
  ∧ ("AAAAAAAAAAAAAAAAAAAAAAAAAAAAAAA" : String).length = 31
  ∧ (NewPayment "p2" ibanDE "éé" ibanFR "Jane Smith" amount10050 keyA 0 0).isOk = true
  ∧ ("éé" : String).length = 2 := by
  refine ⟨rfl, by decide, rfl, by decide⟩

/-- Claim C4 (amended): construction succeeds if and only if the debtor and
creditor names are each at least 3 UTF-8 bytes long and the amount is
non-zero; no upper bound is enforced.  On success the aggregate carries the
inputs with status Pending; on any violation the result is the
ErrInvalidAmount validation error and no aggregate. -/
theorem C4_construction_lower_bound_only (id dn cn : String) (di ci : IBAN)
    (a : Amount) (k : IdempotencyKey) (c u : Nat) :
    (NewPayment id di dn ci cn a k c u
        = .ok { id := id, debtorIBAN := di, debtorName := dn, creditorIBAN := ci,
                creditorName := cn, amount := a, idempotencyKey := k,
                status := StatusPending, createdAt := c, updatedAt := u }
      ↔ 3 ≤ utf8Len dn ∧ 3 ≤ utf8Len cn ∧ a.value ≠ 0)
  ∧ (¬ (3 ≤ utf8Len dn ∧ 3 ≤ utf8Len cn ∧ a.value ≠ 0) →
      NewPayment id di dn ci cn a k c u = .error .errInvalidAmount) := by
  unfold NewPayment validatePaymentData Amount.IsZero
  by_cases h1 : utf8Len dn < 3 <;> by_cases h2 : utf8Len cn < 3 <;>
    by_cases h3 : a.value = 0 <;>
    · simp [h1, h2, h3]
      try omega

/-- Claim C4 amended, witness at concrete inputs. -/
theorem C4_construction_lower_bound_only_witness :
    NewPayment "p2" ibanDE "John Doe" ibanFR "Jane Smith" amount10050 keyA 0 0
      = .ok { id := "p2", debtorIBAN := ibanDE, debtorName := "John Doe",
              creditorIBAN := ibanFR, creditorName := "Jane Smith",
              amount := amount10050, idempotencyKey := keyA,
              status := StatusPending, createdAt := 0, updatedAt := 0 } :=
  ((C4_construction_lower_bound_only "p2" "John Doe" "Jane Smith" ibanDE ibanFR
      amount10050 keyA 0 0).1).mpr (by decide)

/-- Claim C2 counterexample: payment31 and paymentOk are genuinely
constructed aggregates sharing one idempotency token under different ids,
yet saving payment31 into an empty store fails with a generic wrapped
CHECK-constraint error (its 31-character debtor name violates the payments
table CHECK), not with DuplicateIdempotencyKey as the claim requires of the
failing save. -/
theorem C2_counterexample :
    payment31.idempotencyKey = paymentOk.idempotencyKey
  ∧ payment31.id ≠ paymentOk.id
  ∧ NewPayment "p1" ibanDE "AAAAAAAAAAAAAAAAAAAAAAAAAAAAAAA" ibanFR "Jane Smith"
      amount10050 keyA 0 0 = .ok payment31
  ∧ Save [] payment31
      = .error (.genericMsg "failed to save payment: CHECK constraint failed: payments")
  ∧ Save [] paymentOk = .ok [rowOf paymentOk] := by
  refine ⟨by decide, by decide, rfl, rfl, rfl⟩

/-- Claim C2 (amended): for two aggregates carrying the same idempotency
token, if both rows satisfy the payments-table CHECK constraints and the
store holds neither the first aggregate's id nor the shared token, then the
first save succeeds and the second always fails with
DuplicateIdempotencyKey; the store visible afterwards holds exactly the old
rows plus the first aggregate's row, never a row of the failed save.
Aggregates violating a CHECK constraint (which construction permits, per
C4) instead fail with a generic storage error. -/
theorem C2_duplicate_token_second_save_fails (db : List Row) (p1 p2 : Payment)
    (hkey : p1.idempotencyKey = p2.idempotencyKey)
    (hc1 : rowCheckOk (rowOf p1) = true) (hc2 : rowCheckOk (rowOf p2) = true)
    (hid : db.any (fun r => r.id == p1.id) = false)
    (hk : db.any (fun r => r.idempotencyKey == p1.idempotencyKey.value) = false) :
    Save db p1 = .ok (db ++ [rowOf p1])
  ∧ Save (db ++ [rowOf p1]) p2 = .error (.sharedErr .errDuplicateIdempotencyKey) := by
  have hc1f : (!rowCheckOk (rowOf p1)) = false := by rw [hc1]; rfl
  have hc2f : (!rowCheckOk (rowOf p2)) = false := by rw [hc2]; rfl
  have hidf : (db.any fun r => r.id == (rowOf p1).id) = false := hid
  have hkf : (db.any fun r => r.idempotencyKey == (rowOf p1).idempotencyKey) = false := hk
  constructor
  · simp only [Save, insertPayment, hc1f, hidf, hkf, Bool.false_eq_true, if_false]
  · simp only [Save, insertPayment, hc2f, Bool.false_eq_true, if_false]
    have hdupkey :
        ((db ++ [rowOf p1]).any fun q => q.idempotencyKey == (rowOf p2).idempotencyKey)
          = true := by
      rw [List.any_append]
      have hone : ((rowOf p1).idempotencyKey == (rowOf p2).idempotencyKey) = true := by
        show (p1.idempotencyKey.value == p2.idempotencyKey.value) = true
        rw [hkey]
        exact beq_self_eq_true _
      simp [hone]
    by_cases hdupid :
        ((db ++ [rowOf p1]).any fun q => q.id == (rowOf p2).id) = true
    · simp only [hdupid, if_true]
      rfl
    · simp only [Bool.not_eq_true] at hdupid
      simp only [hdupid, Bool.false_eq_true, if_false, hdupkey, if_true]
      rfl

/-- Claim C2 amended, witness: two concrete well-formed aggregates with the
same token and different ids, saved into the empty store. -/
theorem C2_duplicate_token_second_save_fails_witness :
    Save [] paymentJohn = .ok ([] ++ [rowOf paymentJohn])
  ∧ Save ([] ++ [rowOf paymentJohn]) paymentOk
      = .error (.sharedErr .errDuplicateIdempotencyKey) :=
  C2_duplicate_token_second_save_fails [] paymentJohn paymentOk
    (by decide) (by decide) (by decide) (by decide) (by decide)

/-- Claim C3: from Pending, markAsProcessed and markAsFailed succeed and
update exactly the status and the last-update timestamp; from any other
status both fail with ErrInvalidStatusTransition and return the aggregate
with every field unchanged; consequently after one successful transition
every later transition attempt fails. -/
theorem C3_status_machine (p : Payment) (t t' : Nat) :
    (p.status = StatusPending →
        p.markAsProcessed t = ({ p with status := StatusProcessed, updatedAt := t }, none)
      ∧ p.markAsFailed t = ({ p with status := StatusFailed, updatedAt := t }, none))
  ∧ (p.status ≠ StatusPending →
        p.markAsProcessed t = (p, some .errInvalidStatusTransition)
      ∧ p.markAsFailed t = (p, some .errInvalidStatusTransition))
  ∧ (∀ q, p.markAsProcessed t = (q, none) →
        q.markAsProcessed t' = (q, some .errInvalidStatusTransition)
      ∧ q.markAsFailed t' = (q, some .errInvalidStatusTransition))
  ∧ (∀ q, p.markAsFailed t = (q, none) →
        q.markAsProcessed t' = (q, some .errInvalidStatusTransition)
      ∧ q.markAsFailed t' = (q, some .errInvalidStatusTransition)) := by
  have hmark : ∀ (r : Payment) (u : Nat), r.status ≠ StatusPending →
      r.markAsProcessed u = (r, some .errInvalidStatusTransition)
    ∧ r.markAsFailed u = (r, some .errInvalidStatusTransition) := by
    intro r u hr
    unfold Payment.markAsProcessed Payment.markAsFailed Payment.canTransitionTo
    simp [hr]
  have hpend : ∀ (u : Nat), p.status = StatusPending →
      p.markAsProcessed u = ({ p with status := StatusProcessed, updatedAt := u }, none)
    ∧ p.markAsFailed u = ({ p with status := StatusFailed, updatedAt := u }, none) := by
    intro u hp
    unfold Payment.markAsProcessed Payment.markAsFailed Payment.canTransitionTo
    simp [hp, StatusPending, StatusProcessed, StatusFailed]
  refine ⟨hpend t, hmark p t, ?_, ?_⟩
  · intro q hq
    by_cases hp : p.status = StatusPending
    · have := ((hpend t hp).1).symm.trans hq
      have hqs : q.status = StatusProcessed := by
        have := congrArg Prod.fst this
        simp at this
        rw [← this]
      exact hmark q t' (by rw [hqs]; decide)
    · have := ((hmark p t hp).1).symm.trans hq
      simp at this
  · intro q hq
    by_cases hp : p.status = StatusPending
    · have := ((hpend t hp).2).symm.trans hq
      have hqs : q.status = StatusFailed := by
        have := congrArg Prod.fst this
        simp at this
        rw [← this]
      exact hmark q t' (by rw [hqs]; decide)
    · have := ((hmark p t hp).2).symm.trans hq
      simp at this

/-- Claim C3, witness: a concrete Pending aggregate transitions to
Processed once, and a second transition attempt on the result fails. -/
theorem C3_status_machine_witness :
    (paymentOk.markAsProcessed 5
        = ({ paymentOk with status := StatusProcessed, updatedAt := 5 }, none))
  ∧ ((paymentOk.markAsProcessed 5).1.markAsProcessed 9
        = ((paymentOk.markAsProcessed 5).1, some .errInvalidStatusTransition)) := by
  have h := C3_status_machine paymentOk 5 9
  refine ⟨(h.1 (by decide)).1, ?_⟩
  have hsucc := (h.1 (by decide)).1
  have := (h.2.2.1 (paymentOk.markAsProcessed 5).1 (by rw [hsucc])).1
  rw [hsucc] at this ⊢
  exact this

/-- Claim C8: addition of the zero amount is the identity on every
non-negative in-range amount; for amounts with b less than or equal to a,
subtraction succeeds and adding b back restores a; when a is smaller than
b, subtraction always fails with the would-be-negative error. -/
theorem C8_amount_algebra (a b : Amount)
    (ha0 : 0 ≤ a.value) (ha1 : a.value < 2 ^ 63)
    (hb0 : 0 ≤ b.value) (hb1 : b.value < 2 ^ 63) :
    (∀ z, NewAmountFromCents 0 = .ok z → a.Add z = a)
  ∧ (b.value ≤ a.value → ∃ d, a.Subtract b = .ok d ∧ d.Add b = a)
  ∧ (a.value < b.value →
      a.Subtract b = .error "cannot subtract, result would be negative") := by
  have hwrap : ∀ x : Int, -(2 ^ 63) ≤ x → x < 2 ^ 63 → wrap64 x = x := by
    intro x hx1 hx2
    unfold wrap64
    rw [Int.emod_eq_of_lt (by omega) (by omega)]
    omega
  refine ⟨?_, ?_, ?_⟩
  · intro z hz
    have hz0 : z = ⟨0⟩ := by
      unfold NewAmountFromCents at hz
      simp at hz
      exact hz.symm
    subst hz0
    unfold Amount.Add
    rw [Int.add_zero, hwrap a.value (by omega) ha1]
  · intro hba
    refine ⟨⟨a.value - b.value⟩, ?_, ?_⟩
    · unfold Amount.Subtract
      rw [if_neg (by omega), hwrap (a.value - b.value) (by omega) (by omega)]
    · unfold Amount.Add
      have : a.value - b.value + b.value = a.value := by omega
      rw [this, hwrap a.value (by omega) ha1]
  · intro hab
    unfold Amount.Subtract
    rw [if_pos hab]

/-- Claim C8, witness at concrete amounts a = 100.50 and b = 3 cents. -/
theorem C8_amount_algebra_witness :
    (∀ z, NewAmountFromCents 0 = .ok z → amount10050.Add z = amount10050)
  ∧ ((3 : Int) ≤ amount10050.value →
      ∃ d, amount10050.Subtract ⟨3⟩ = .ok d ∧ d.Add ⟨3⟩ = amount10050) := by
  have h := C8_amount_algebra amount10050 ⟨3⟩ (by decide) (by decide) (by decide) (by decide)
  exact ⟨h.1, fun _ => h.2.1 (by decide)⟩

/-- Uppercasing a lowercase ASCII letter shifts its codepoint down by 32. -/
theorem toNat_goToUpper_of_lower {c : Char} (h : 97 ≤ c.toNat ∧ c.toNat ≤ 122) :
    (goToUpper c).toNat = c.toNat - 32 := by
  unfold goToUpper
  rw [dif_pos h]
  rfl

/-- Characters outside the lowercase ASCII range are fixed by goToUpper. -/
theorem goToUpper_eq_self {c : Char} (h : ¬ (97 ≤ c.toNat ∧ c.toNat ≤ 122)) :
    goToUpper c = c := by
  unfold goToUpper
  rw [dif_neg h]

/-- goToUpper never produces a space from a non-space. -/
theorem goToUpper_ne_space {c : Char} (h : c ≠ ' ') : goToUpper c ≠ ' ' := by
  by_cases hl : 97 ≤ c.toNat ∧ c.toNat ≤ 122
  · intro hcontra
    have h1 := toNat_goToUpper_of_lower hl
    rw [hcontra] at h1
    have h2 : (' ' : Char).toNat = 32 := by decide
    omega
  · rw [goToUpper_eq_self hl]
    exact h

/-- goToUpper is idempotent. -/
theorem goToUpper_idem (c : Char) : goToUpper (goToUpper c) = goToUpper c := by
  by_cases hl : 97 ≤ c.toNat ∧ c.toNat ≤ 122
  · apply goToUpper_eq_self
    rw [toNat_goToUpper_of_lower hl]
    omega
  · rw [goToUpper_eq_self hl]
    exact goToUpper_eq_self hl

/-- Claim C9: NewIBAN succeeds exactly when the normalized (space-stripped,
uppercased) input matches the IBAN grammar; every accepted value stores the
normalized string; inputs with equal normalizations construct identical
results; and normalization is idempotent and space-free, so the stored form
is uppercase and space-free. -/
theorem C9_iban_normalization (s t : String) :
    ((NewIBAN s).isOk = true ↔ ibanMatch (normalizeIBAN s).data = true)
  ∧ (∀ i, NewIBAN s = .ok i → i.value = normalizeIBAN s)
  ∧ (normalizeIBAN s = normalizeIBAN t → NewIBAN s = NewIBAN t)
  ∧ normalizeIBAN (normalizeIBAN s) = normalizeIBAN s
  ∧ (normalizeIBAN s).data.all (fun c => c != ' ') = true := by
  have hmem : ∀ x ∈ (normalizeIBAN s).data, x ≠ ' ' := by
    intro x hx
    unfold normalizeIBAN at hx
    obtain ⟨c, hc, rfl⟩ := List.mem_map.mp hx
    have hcs : c ≠ ' ' := by
      have := List.mem_filter.mp hc
      simpa using this.2
    exact goToUpper_ne_space hcs
  refine ⟨?_, ?_, ?_, ?_, ?_⟩
  · unfold NewIBAN
    by_cases hm : ibanMatch (normalizeIBAN s).data = true
    · rw [if_pos hm]
      exact ⟨fun _ => hm, fun _ => rfl⟩
    · rw [if_neg hm]
      constructor
      · intro hk
        exact absurd hk (by decide)
      · intro hmt
        exact absurd hmt hm
  · intro i hi
    unfold NewIBAN at hi
    by_cases hm : ibanMatch (normalizeIBAN s).data = true
    · rw [if_pos hm] at hi
      cases hi
      rfl
    · rw [if_neg hm] at hi
      cases hi
  · intro h
    unfold NewIBAN
    rw [h]
  · unfold normalizeIBAN
    congr 1
    have hfix : ((normalizeIBAN s).data.filter (fun c => c ≠ ' '))
        = (normalizeIBAN s).data := by
      apply List.filter_eq_self.mpr
      intro x hx
      simpa using hmem x hx
    show (((normalizeIBAN s).data.filter (fun c => c ≠ ' ')).map goToUpper)
        = (normalizeIBAN s).data
    rw [hfix]
    unfold normalizeIBAN
    rw [List.map_map]
    exact List.map_congr_left (fun c _ => goToUpper_idem c)
  · apply List.all_eq_true.mpr
    intro x hx
    simpa using hmem x hx

/-- Claim C9, witness: a lowercase, space-separated input is accepted and
constructs the same value as its already-normalized form. -/
theorem C9_iban_normalization_witness :
    (NewIBAN "gb82 west 1234 5698 7654 32").isOk = true
  ∧ NewIBAN "gb82 west 1234 5698 7654 32" = NewIBAN "GB82WEST12345698765432" := by
  have h := C9_iban_normalization "gb82 west 1234 5698 7654 32" "GB82WEST12345698765432"
  exact ⟨(h.1).mpr (by decide), h.2.2.1 (by decide)⟩

/-- Any-over-map for maps between different element types. -/
theorem any_map_general {α β : Type} (l : List α) (f : α → β) (p : β → Bool) :
    (l.map f).any p = l.any (fun a => p (f a)) := by
  induction l with
  | nil => rfl
  | cons h t ih => simp only [List.map_cons, List.any_cons, ih]

/-- Scanning the tracking table and testing a version for membership agrees
with testing the raw tracking rows. -/
theorem appliedOf_any (st : DbState) (v : Int) :
    ((appliedOf st).any fun a => a.version == v)
      = (st.tracking.any fun r => r.1 == v) := by
  unfold appliedOf
  generalize st.tracking = l
  induction l with
  | nil => rfl
  | cons h t ih => simp only [List.map_cons, List.any_cons, ih]

/-- When every migration in the list executes successfully and no version
collides with the tracking table or with another list entry, the loop
commits every migration in list order, opening one transaction each. -/
theorem migrateLoop_all_ok (execOk : String → Bool) (now : Nat) (l : List Migration) :
    ∀ st : DbState,
      (∀ mg ∈ l, execOk mg.sql = true) →
      (∀ mg ∈ l, (st.tracking.any fun r => r.1 == mg.version) = false) →
      l.Pairwise (fun m1 m2 => m1.version ≠ m2.version) →
      migrateLoop execOk now l st
        = ({ tracking := st.tracking ++ l.map fun mg => (mg.version, now),
             schema := st.schema ++ l.map fun mg => mg.sql }, none, l.length) := by
  induction l with
  | nil =>
      intro st _ _ _
      simp [migrateLoop]
  | cons mg rest ih =>
      intro st hex htr hpw
      have hexmg := hex mg (List.mem_cons_self _ _)
      have htrmg := htr mg (List.mem_cons_self _ _)
      have happ : applyMigration execOk now st mg
          = .ok { tracking := st.tracking ++ [(mg.version, now)],
                  schema := st.schema ++ [mg.sql] } := by
        simp [applyMigration, hexmg, htrmg]
      have hpwc := List.pairwise_cons.mp hpw
      have hrest := ih { tracking := st.tracking ++ [(mg.version, now)],
                         schema := st.schema ++ [mg.sql] }
        (fun m hm => hex m (List.mem_cons_of_mem _ hm))
        (by
          intro m hm
          rw [List.any_append]
          have h1 := htr m (List.mem_cons_of_mem _ hm)
          have h2 : mg.version ≠ m.version := hpwc.1 m hm
          simp [h1, h2])
        hpwc.2
      simp only [migrateLoop, happ, hrest]
      simp [List.append_assoc]

/-- Claim C6: a migration run applies exactly the set difference of the
available migrations minus the already-tracked versions, in the (strictly
ascending) order of the available list; on a fully migrated database the
pending set is empty and the run returns the state unchanged, having opened
zero transactions. -/
theorem C6_migrate_set_difference (execOk : String → Bool) (now : Nat)
    (available : List Migration) (st : DbState)
    (hsorted : available.Pairwise fun m1 m2 => m1.version < m2.version)
    (hexec : ∀ mg ∈ findPendingMigrations available (appliedOf st), execOk mg.sql = true) :
    findPendingMigrations available (appliedOf st)
        = available.filter (fun mg => ! st.tracking.any fun r => r.1 == mg.version)
  ∧ (findPendingMigrations available (appliedOf st)).Pairwise
        (fun m1 m2 => m1.version < m2.version)
  ∧ migrate execOk now available st
      = ({ tracking := st.tracking
              ++ (findPendingMigrations available (appliedOf st)).map
                  (fun mg => (mg.version, now)),
           schema := st.schema
              ++ (findPendingMigrations available (appliedOf st)).map
                  (fun mg => mg.sql) },
         none, (findPendingMigrations available (appliedOf st)).length)
  ∧ ((∀ mg ∈ available, (st.tracking.any fun r => r.1 == mg.version) = true) →
        findPendingMigrations available (appliedOf st) = []
      ∧ migrate execOk now available st = (st, none, 0)) := by
  have hcong : findPendingMigrations available (appliedOf st)
      = available.filter (fun mg => ! st.tracking.any fun r => r.1 == mg.version) := by
    unfold findPendingMigrations
    apply List.filter_congr
    intro mg _
    rw [appliedOf_any]
  have hpend : (findPendingMigrations available (appliedOf st)).Pairwise
      (fun m1 m2 => m1.version < m2.version) := by
    unfold findPendingMigrations
    exact hsorted.filter _
  have htrk : ∀ mg ∈ findPendingMigrations available (appliedOf st),
      (st.tracking.any fun r => r.1 == mg.version) = false := by
    intro mg hmg
    rw [hcong] at hmg
    have := List.mem_filter.mp hmg
    simpa using this.2
  refine ⟨hcong, hpend, ?_, ?_⟩
  · unfold migrate
    exact migrateLoop_all_ok execOk now _ st hexec htrk
      (hpend.imp (fun h => ne_of_lt h))
  · intro hall
    have hnil : findPendingMigrations available (appliedOf st) = [] := by
      rw [hcong]
      apply List.filter_eq_nil_iff.mpr
      intro mg hmg
      simp [hall mg hmg]
    refine ⟨hnil, ?_⟩
    unfold migrate
    rw [hnil]
    rfl

/-- Claim C6, witness: with one of two migrations already tracked, the run
applies exactly the missing one after it, in order, in one transaction. -/
theorem C6_migrate_set_difference_witness :
    migrate (fun _ => true) 99 [⟨1, "a", none⟩, ⟨2, "b", none⟩] ⟨[(1, 11)], ["a"]⟩
      = (⟨[(1, 11), (2, 99)], ["a", "b"]⟩, none, 1) := by
  have h := (C6_migrate_set_difference (fun _ => true) 99
      [⟨1, "a", none⟩, ⟨2, "b", none⟩] ⟨[(1, 11)], ["a"]⟩
      (by decide) (by decide)).2.2.1
  exact h.trans (by decide)

/-- Claim C7: a failing migration application fails the whole run, leaves
the database state exactly as it was (no tracking row, no schema change for
it), and attempts no later migration; a successful application commits the
script body and the tracking row together; either step failing (script
execution or the version insert) yields an error; and running the engine
twice over an empty database records exactly one tracking row per available
version, the second run changing nothing. -/
theorem C7_migration_atomicity (execOk : String → Bool) (now now2 : Nat)
    (available : List Migration) (st : DbState) (mg : Migration)
    (rest : List Migration) (e : String)
    (hsorted : available.Pairwise fun m1 m2 => m1.version < m2.version)
    (hexec : ∀ m ∈ available, execOk m.sql = true) :
    (applyMigration execOk now st mg = .error e →
        migrateLoop execOk now (mg :: rest) st
          = (st, some ("failed to apply migration: " ++ e), 1))
  ∧ (execOk mg.sql = true → (st.tracking.any fun r => r.1 == mg.version) = false →
        applyMigration execOk now st mg
          = .ok { tracking := st.tracking ++ [(mg.version, now)],
                  schema := st.schema ++ [mg.sql] })
  ∧ ((execOk mg.sql = false ∨ (st.tracking.any fun r => r.1 == mg.version) = true) →
        ∃ msg, applyMigration execOk now st mg = .error msg)
  ∧ ((migrate execOk now available ⟨[], []⟩).1.tracking
        = available.map (fun m => (m.version, now))
      ∧ migrate execOk now2 available (migrate execOk now available ⟨[], []⟩).1
          = ((migrate execOk now available ⟨[], []⟩).1, none, 0)) := by
  have hrun1 : migrate execOk now available ⟨[], []⟩
      = ({ tracking := available.map fun m => (m.version, now),
           schema := [] ++ available.map fun m => m.sql }, none, available.length) := by
    unfold migrate
    have hpend : findPendingMigrations available (appliedOf ⟨[], []⟩) = available := by
      unfold findPendingMigrations appliedOf
      exact List.filter_eq_self.mpr (fun mg _ => rfl)
    rw [hpend]
    have h := migrateLoop_all_ok execOk now available ⟨[], []⟩ hexec
      (fun mg _ => rfl) (hsorted.imp (fun h => ne_of_lt h))
    rw [h]
    rfl
  refine ⟨?_, ?_, ?_, ?_, ?_⟩
  · intro h
    simp only [migrateLoop, h]
  · intro h1 h2
    simp [applyMigration, h1, h2]
  · intro h
    rcases h with h | h
    · exact ⟨"failed to execute migration SQL", by simp [applyMigration, h]⟩
    · by_cases hx : execOk mg.sql = true
      · exact ⟨"failed to record migration", by simp [applyMigration, hx, h]⟩
      · exact ⟨"failed to execute migration SQL", by
          simp only [Bool.not_eq_true] at hx
          simp [applyMigration, hx]⟩
  · rw [hrun1]
  · have hpend2 : findPendingMigrations available
        (appliedOf ({ tracking := List.map (fun m => (m.version, now)) available,
                      schema := [] ++ List.map (fun m => m.sql) available })) = [] := by
      unfold findPendingMigrations
      apply List.filter_eq_nil_iff.mpr
      intro mg hmg
      have hin : ((appliedOf ({ tracking := List.map (fun m => (m.version, now)) available,
                                schema := [] ++ List.map (fun m => m.sql) available })).any
            fun a => a.version == mg.version) = true := by
        rw [appliedOf_any]
        rw [any_map_general]
        exact List.any_eq_true.mpr ⟨mg, hmg, by simp⟩
      simp only [List.nil_append] at hin
      simp [hin]
    rw [hrun1]
    show migrate execOk now2 available
        ({ tracking := List.map (fun m => (m.version, now)) available,
           schema := [] ++ List.map (fun m => m.sql) available })
      = ({ tracking := List.map (fun m => (m.version, now)) available,
           schema := [] ++ List.map (fun m => m.sql) available }, none, 0)
    unfold migrate
    rw [hpend2]
    rfl

/-- Claim C7, witness: two migrations over the empty database, run twice. -/
theorem C7_migration_atomicity_witness :
    (migrate (fun _ => true) 5 [⟨1, "a", none⟩, ⟨2, "b", none⟩] ⟨[], []⟩).1.tracking
        = [(1, 5), (2, 5)]
  ∧ migrate (fun _ => true) 6 [⟨1, "a", none⟩, ⟨2, "b", none⟩]
        (migrate (fun _ => true) 5 [⟨1, "a", none⟩, ⟨2, "b", none⟩] ⟨[], []⟩).1
      = ((migrate (fun _ => true) 5 [⟨1, "a", none⟩, ⟨2, "b", none⟩] ⟨[], []⟩).1,
         none, 0) := by
  have h := (C7_migration_atomicity (fun _ => true) 5 6
      [⟨1, "a", none⟩, ⟨2, "b", none⟩] ⟨[], []⟩ ⟨1, "a", none⟩ [] "x"
      (by decide) (by decide)).2.2.2
  exact ⟨h.1.trans (by decide), h.2⟩

/-- Claim C10: Amount.Add is unchecked int64 addition; two validly
constructed non-negative amounts of 2^62 cents add to a negative value,
breaking the non-negativity invariant. -/
theorem C10_add_overflow_negative :
    NewAmountFromCents (2 ^ 62) = .ok ⟨2 ^ 62⟩
  ∧ ((Amount.mk (2 ^ 62)).Add ⟨2 ^ 62⟩).value < 0 := by
  constructor
  · rfl
  · decide

end PaymentService
